import Mathlib

/-!
Verification development for `ballontranslator/ui/fontformatpanel.py`.

The module is a thin wrapper over the Qt rich-text document/cursor API.  We
shallow-embed the Qt objects the module manipulates:

* `QFont` is the resolved font of a piece of text (family, point size,
  weight, italic, underline, word/letter spacing).
* `CharFormat` is a resolved character format: a font plus a foreground
  color.  A `QTextDocument` stores one `CharFormat` per character.
* `QTextCharFormat` models a freshly constructed format object on which a
  handful of setters were called: only the set properties are present, and
  `mergeCharFormat` applies exactly those properties (Qt merge semantics).
* `QTextCursor` carries a `position`, an `anchor` and the cursor-local
  character format.  `hasSelection` is `position != anchor`,
  `selectionStart`/`selectionEnd` are the min/max of the two, and
  `select(QTextCursor.Document)` moves the anchor to 0 and the position to
  the last position of the root frame.
* `QTextDocument` is modelled with a single text block, so the block
  character format is one value and the outer per-block loop of
  `set_textblk_family` visits a single block.  Fragments are the maximal
  runs of characters sharing one `CharFormat`, as in Qt.

Colors are RGB triples, modelled as lists of naturals as in the Python
code.  Floating point sizes are modelled as rationals; the constants the
module multiplies by (1.25 and 0.75) are exactly representable, so the
rational model matches the float computation on the inputs of interest.
-/

abbrev Rgb := List Nat

structure QFont where
  family : String
  pointSizeF : Rat
  weight : Nat
  italic : Bool
  underline : Bool
  wordSpacing : Rat
  letterSpacingType : Nat
  letterSpacing : Rat
deriving DecidableEq, Repr

/-- A resolved character format: the font of the run plus its foreground
color. -/
structure CharFormat where
  font : QFont
  foreground : Rgb
deriving DecidableEq, Repr

/-- A `QTextCharFormat()` freshly constructed and populated through setters:
only the properties that were set are present, and merging applies exactly
those. -/
structure QTextCharFormat where
  fontPointSize : Option Rat := none
  fontWeight : Option Nat := none
  fontItalic : Option Bool := none
  fontUnderline : Option Bool := none
  foregroundColor : Option Rgb := none
deriving DecidableEq, Repr

/-- Qt merge semantics: each property present in the modifier overwrites the
corresponding resolved property, everything else is kept. -/
def QTextCharFormat.applyTo (patch : QTextCharFormat) (cf : CharFormat) : CharFormat :=
  let font := cf.font
  let font := match patch.fontPointSize with
    | some v => { font with pointSizeF := v }
    | none => font
  let font := match patch.fontWeight with
    | some v => { font with weight := v }
    | none => font
  let font := match patch.fontItalic with
    | some v => { font with italic := v }
    | none => font
  let font := match patch.fontUnderline with
    | some v => { font with underline := v }
    | none => font
  { cf with
    font := font
    foreground := patch.foregroundColor.getD cf.foreground }

structure QTextDocument where
  chars : List (Char × CharFormat)
  blockCharFormat : CharFormat
  defaultFont : QFont
  relayouts : Nat
deriving DecidableEq, Repr

def QTextDocument.isEmpty (doc : QTextDocument) : Bool :=
  doc.chars.isEmpty

/-- `doc.rootFrame().lastPosition()`: the position just after the last
character. -/
def QTextDocument.rootFrameLastPosition (doc : QTextDocument) : Nat :=
  doc.chars.length

/-- `doc.documentLayout().reLayout()`: layout is not modelled beyond a
counter recording that a relayout happened. -/
def QTextDocument.reLayout (doc : QTextDocument) : QTextDocument :=
  { doc with relayouts := doc.relayouts + 1 }

def QTextDocument.setDefaultFont (doc : QTextDocument) (f : QFont) : QTextDocument :=
  { doc with defaultFont := f }

structure QTextCursor where
  position : Nat
  anchor : Nat
  charFormat : CharFormat
deriving DecidableEq, Repr

def QTextCursor.hasSelection (c : QTextCursor) : Bool :=
  c.position != c.anchor

def QTextCursor.selectionStart (c : QTextCursor) : Nat :=
  min c.position c.anchor

def QTextCursor.selectionEnd (c : QTextCursor) : Nat :=
  max c.position c.anchor

/-- `cursor.setPosition(p)` with the default `MoveAnchor` mode. -/
def QTextCursor.setPosition (c : QTextCursor) (p : Nat) : QTextCursor :=
  { c with position := p, anchor := p }

/-- `cursor.setPosition(p, QTextCursor.KeepAnchor)`. -/
def QTextCursor.setPositionKeepAnchor (c : QTextCursor) (p : Nat) : QTextCursor :=
  { c with position := p }

/-- `cursor.select(QTextCursor.Document)`: anchor at 0, position at the last
position of the document. -/
def QTextCursor.selectDocument (c : QTextCursor) (doc : QTextDocument) : QTextCursor :=
  { c with anchor := 0, position := doc.rootFrameLastPosition }

/-- Replace the character format of every position in `[a, b)`; `i` is the
position of the head of the list being traversed. -/
def applyFmtInRange (g : CharFormat → CharFormat) (a b : Nat) :
    Nat → List (Char × CharFormat) → List (Char × CharFormat)
  | _, [] => []
  | i, cf :: rest =>
      (if a ≤ i ∧ i < b then (cf.1, g cf.2) else cf) :: applyFmtInRange g a b (i + 1) rest

/-- `cursor.mergeCharFormat(patch)`: the patch is merged into every character
of the selection and into the cursor-local format. -/
def QTextCursor.mergeCharFormat (c : QTextCursor) (doc : QTextDocument)
    (patch : QTextCharFormat) : QTextDocument × QTextCursor :=
  ({ doc with
      chars := applyFmtInRange patch.applyTo c.selectionStart c.selectionEnd 0 doc.chars },
   { c with charFormat := patch.applyTo c.charFormat })

/-- `cursor.mergeBlockCharFormat(patch)` on the single modelled block. -/
def QTextCursor.mergeBlockCharFormat (_c : QTextCursor) (doc : QTextDocument)
    (patch : QTextCharFormat) : QTextDocument :=
  { doc with blockCharFormat := patch.applyTo doc.blockCharFormat }

/-- `cursor.setCharFormat(fmt)`: the resolved format replaces the format of
the whole selection, and becomes the cursor-local format. -/
def QTextCursor.setCharFormat (c : QTextCursor) (doc : QTextDocument)
    (fmt : CharFormat) : QTextDocument × QTextCursor :=
  ({ doc with
      chars := applyFmtInRange (fun _ => fmt) c.selectionStart c.selectionEnd 0 doc.chars },
   { c with charFormat := fmt })

/-- `cursor.selection().toHtml()` followed by parsing back: an HTML fragment
is modelled by the formatted character sequence it denotes. -/
def QTextCursor.selectionContent (c : QTextCursor) (doc : QTextDocument) :
    List (Char × CharFormat) :=
  (doc.chars.drop c.selectionStart).take (c.selectionEnd - c.selectionStart)

/-- `cursor.insertHtml(html)`: the selection is replaced by the fragment and
the cursor ends up collapsed after the inserted content. -/
def QTextCursor.insertHtml (c : QTextCursor) (doc : QTextDocument)
    (html : List (Char × CharFormat)) : QTextDocument × QTextCursor :=
  let s := c.selectionStart
  ({ doc with chars := doc.chars.take s ++ html ++ doc.chars.drop c.selectionEnd },
   { c with position := s + html.length, anchor := s + html.length })

/-- Modelled from the spec: `set_html_color` (defined in `ui/misc.py`, which
is not under `src/`) rewrites the color attributes of an HTML fragment to
the given rgb and changes nothing else, so the fragment denotes the same
characters with every foreground replaced by `rgb`. -/
def set_html_color (html : List (Char × CharFormat)) (rgb : Rgb) :
    List (Char × CharFormat) :=
  html.map fun cf => (cf.1, { cf.2 with foreground := rgb })

/-- Modelled from the spec: `FontFormat` (defined in `ui/misc.py`, which is
not under `src/`) is a plain record of font attributes; the fields are the
ones the panel reads and writes. -/
structure FontFormat where
  family : String
  size : Rat
  stroke_width : Rat
  frgb : Rgb
  srgb : Rgb
  bold : Bool
  weight : Nat
  underline : Bool
  italic : Bool
  alignment : Nat
  vertical : Bool
  line_spacing : Rat
deriving DecidableEq, Repr

inductive QtAlign where
  | AlignLeft
  | AlignCenter
  | AlignRight
deriving DecidableEq, Repr

/-- Modelled from the spec: `TextBlkItem` (defined in `ui/textitem.py`, which
is not under `src/`) is a canvas text item owning a rich-text document and a
text cursor, with stroke/alignment/spacing attributes and a background that
can be repainted; its methods used by this module delegate to the document
and cursor or set the corresponding attribute. -/
structure TextBlkItem where
  doc : QTextDocument
  cursor : QTextCursor
  stroke_width : Rat
  stroke_color : Rgb
  alignmentFlag : QtAlign
  line_spacing : Rat
  vertical : Bool
  repaints : Nat
  fontformat : FontFormat
  idx : Nat
deriving DecidableEq, Repr

def TextBlkItem.textCursor (b : TextBlkItem) : QTextCursor := b.cursor

def TextBlkItem.setTextCursor (b : TextBlkItem) (c : QTextCursor) : TextBlkItem :=
  { b with cursor := c }

def TextBlkItem.document (b : TextBlkItem) : QTextDocument := b.doc

def TextBlkItem.repaint_background (b : TextBlkItem) : TextBlkItem :=
  { b with repaints := b.repaints + 1 }

def TextBlkItem.setStrokeWidth (b : TextBlkItem) (w : Rat) : TextBlkItem :=
  { b with stroke_width := w }

def TextBlkItem.setStrokeColor (b : TextBlkItem) (rgb : Rgb) : TextBlkItem :=
  { b with stroke_color := rgb }

def TextBlkItem.setAlignment (b : TextBlkItem) (al : QtAlign) : TextBlkItem :=
  { b with alignmentFlag := al }

def TextBlkItem.setLineSpacing (b : TextBlkItem) (ls : Rat) : TextBlkItem :=
  { b with line_spacing := ls }

def TextBlkItem.setVertical (b : TextBlkItem) (v : Bool) : TextBlkItem :=
  { b with vertical := v }

def TextBlkItem.get_fontformat (b : TextBlkItem) : FontFormat := b.fontformat

/-!
The `restore_textcursor` decorator (fontformatpanel.py lines 16-40).  A
wrapped formatting function receives the block item and a cursor; it may
update the block item (and through it the document) and the cursor, which
is reflected here by returning both.
-/

/-- Mirror of the decorator body, lines 19-39: `None` guard, save of the
stroke width and cursor position/anchor, select-all when there is no
selection, call of the wrapped function, restore of the cursor, and
conditional background repaint. -/
def restore_textcursor (formatting_func : TextBlkItem → QTextCursor → TextBlkItem × QTextCursor) :
    Option TextBlkItem → Option TextBlkItem
  | none => none
  | some blkitem =>
      let stroke_width_before := blkitem.stroke_width
      let cursor := blkitem.textCursor
      let set_all := !cursor.hasSelection
      let pos1 := cursor.position
      -- `cursor.anchor().__pos__()` is unary plus on an int, the identity.
      let pos2 := cursor.anchor
      let cursor := if set_all then cursor.selectDocument blkitem.document else cursor
      let res := formatting_func blkitem cursor
      let blkitem := res.1
      let cursor := res.2
      let cursor :=
        if !set_all then
          (cursor.setPosition (min pos1 pos2)).setPositionKeepAnchor (max pos1 pos2)
        else
          cursor.setPosition pos1
      let blkitem := blkitem.setTextCursor cursor
      some (if blkitem.stroke_width ≠ stroke_width_before then blkitem.repaint_background else blkitem)

/-- The cursor the wrapped function is invoked with: the block cursor itself
when it has a selection, the whole-document selection otherwise. -/
def invoked_cursor (b : TextBlkItem) : QTextCursor :=
  let cursor := b.textCursor
  if !cursor.hasSelection then cursor.selectDocument b.document else cursor

/-- The post-processing the decorator performs on the result of the wrapped
function: cursor restore, `setTextCursor`, conditional repaint. -/
def restore_finish (b0 : TextBlkItem) (res : TextBlkItem × QTextCursor) : TextBlkItem :=
  let stroke_width_before := b0.stroke_width
  let set_all := !b0.textCursor.hasSelection
  let pos1 := b0.textCursor.position
  let pos2 := b0.textCursor.anchor
  let blkitem := res.1
  let cursor := res.2
  let cursor :=
    if !set_all then
      (cursor.setPosition (min pos1 pos2)).setPositionKeepAnchor (max pos1 pos2)
    else
      cursor.setPosition pos1
  let blkitem := blkitem.setTextCursor cursor
  if blkitem.stroke_width ≠ stroke_width_before then blkitem.repaint_background else blkitem

/-!
The wrapped formatting operations (fontformatpanel.py lines 42-139).  Each
Python function decorated with `@restore_textcursor` is modelled as a core
function `*_fn` (the body that receives the effective cursor) passed through
`restore_textcursor`.
-/

/-- Body of `set_textblk_color`, lines 43-50. -/
def set_textblk_color_fn (blkitem : TextBlkItem) (cursor : QTextCursor) (rgb : Rgb) :
    TextBlkItem × QTextCursor :=
  if !blkitem.document.isEmpty then
    let fraghtml := cursor.selectionContent blkitem.document
    let res := cursor.insertHtml blkitem.document (set_html_color fraghtml rgb)
    ({ blkitem with doc := res.1 }, res.2)
  else
    let fmt := cursor.charFormat
    let fmt := { fmt with foreground := rgb }
    let res := cursor.setCharFormat blkitem.document fmt
    ({ blkitem with doc := res.1 }, res.2)

def set_textblk_color (blkitem : Option TextBlkItem) (rgb : Rgb) : Option TextBlkItem :=
  restore_textcursor (fun b c => set_textblk_color_fn b c rgb) blkitem

/-- Body of `set_textblk_fontsize`, lines 53-65. -/
def set_textblk_fontsize_fn (blkitem : TextBlkItem) (cursor : QTextCursor) (fontsize : Rat) :
    TextBlkItem × QTextCursor :=
  let format : QTextCharFormat := { fontPointSize := some fontsize }
  let res := cursor.mergeCharFormat blkitem.document format
  let doc := res.1
  let cursor := res.2
  let lastpos := doc.rootFrameLastPosition
  let doc :=
    if cursor.selectionStart = 0 ∧ cursor.selectionEnd = lastpos then
      let font := doc.defaultFont
      let font := { font with pointSizeF := fontsize }
      doc.setDefaultFont font
    else doc
  let doc := cursor.mergeBlockCharFormat doc format
  let doc := doc.reLayout
  ({ blkitem with doc := doc }, cursor)

def set_textblk_fontsize (blkitem : Option TextBlkItem) (fontsize : Rat) : Option TextBlkItem :=
  restore_textcursor (fun b c => set_textblk_fontsize_fn b c fontsize) blkitem

/-- Body of `set_textblk_weight`, lines 68-71. -/
def set_textblk_weight_fn (blkitem : TextBlkItem) (cursor : QTextCursor) (weight : Nat) :
    TextBlkItem × QTextCursor :=
  let format : QTextCharFormat := { fontWeight := some weight }
  let res := cursor.mergeCharFormat blkitem.document format
  ({ blkitem with doc := res.1 }, res.2)

def set_textblk_weight (blkitem : Option TextBlkItem) (weight : Nat) : Option TextBlkItem :=
  restore_textcursor (fun b c => set_textblk_weight_fn b c weight) blkitem

/-- Body of `set_textblk_italic`, lines 74-77. -/
def set_textblk_italic_fn (blkitem : TextBlkItem) (cursor : QTextCursor) (italic : Bool) :
    TextBlkItem × QTextCursor :=
  let format : QTextCharFormat := { fontItalic := some italic }
  let res := cursor.mergeCharFormat blkitem.document format
  ({ blkitem with doc := res.1 }, res.2)

def set_textblk_italic (blkitem : Option TextBlkItem) (italic : Bool) : Option TextBlkItem :=
  restore_textcursor (fun b c => set_textblk_italic_fn b c italic) blkitem

/-- Body of `set_textblk_underline`, lines 80-83. -/
def set_textblk_underline_fn (blkitem : TextBlkItem) (cursor : QTextCursor) (underline : Bool) :
    TextBlkItem × QTextCursor :=
  let format : QTextCharFormat := { fontUnderline := some underline }
  let res := cursor.mergeCharFormat blkitem.document format
  ({ blkitem with doc := res.1 }, res.2)

def set_textblk_underline (blkitem : Option TextBlkItem) (underline : Bool) : Option TextBlkItem :=
  restore_textcursor (fun b c => set_textblk_underline_fn b c underline) blkitem

/-- Body of `set_textblk_alignment`, lines 86-88.  The source indexes the
list `[AlignLeft, AlignCenter, AlignRight]` with the given integer, which
raises `IndexError` for any value outside 0..2; the panel only ever passes
0, 1 or 2, and the model takes the same lookup with a lookup default. -/
def set_textblk_alignment_fn (blkitem : TextBlkItem) (cursor : QTextCursor) (alignment : Nat) :
    TextBlkItem × QTextCursor :=
  let flag := [QtAlign.AlignLeft, QtAlign.AlignCenter, QtAlign.AlignRight].getD alignment QtAlign.AlignLeft
  (blkitem.setAlignment flag, cursor)

def set_textblk_alignment (blkitem : Option TextBlkItem) (alignment : Nat) : Option TextBlkItem :=
  restore_textcursor (fun b c => set_textblk_alignment_fn b c alignment) blkitem

/-- Body of `set_textblk_strokewidth`, lines 91-92. -/
def set_textblk_strokewidth_fn (blkitem : TextBlkItem) (cursor : QTextCursor) (stroke_width : Rat) :
    TextBlkItem × QTextCursor :=
  (blkitem.setStrokeWidth stroke_width, cursor)

def set_textblk_strokewidth (blkitem : Option TextBlkItem) (stroke_width : Rat) : Option TextBlkItem :=
  restore_textcursor (fun b c => set_textblk_strokewidth_fn b c stroke_width) blkitem

/-- Body of `set_textblk_strokecolor`, lines 95-96. -/
def set_textblk_strokecolor_fn (blkitem : TextBlkItem) (cursor : QTextCursor) (stroke_color : Rgb) :
    TextBlkItem × QTextCursor :=
  (blkitem.setStrokeColor stroke_color, cursor)

def set_textblk_strokecolor (blkitem : Option TextBlkItem) (stroke_color : Rgb) : Option TextBlkItem :=
  restore_textcursor (fun b c => set_textblk_strokecolor_fn b c stroke_color) blkitem

/-- Body of `set_textblk_linespacing`, lines 138-139. -/
def set_textblk_linespacing_fn (blkitem : TextBlkItem) (cursor : QTextCursor) (line_spacing : Rat) :
    TextBlkItem × QTextCursor :=
  (blkitem.setLineSpacing line_spacing, cursor)

def set_textblk_linespacing (blkitem : Option TextBlkItem) (line_spacing : Rat) : Option TextBlkItem :=
  restore_textcursor (fun b c => set_textblk_linespacing_fn b c line_spacing) blkitem

/-!
Fragment iteration for `set_textblk_family` (fontformatpanel.py lines
98-135).  A fragment is a maximal run of characters sharing one character
format; `fragmentsFrom s fmts` lists the fragments of the format sequence
`fmts` as `(position, length, format)` triples, `s` being the document
position of the head of `fmts`.
-/

def fragmentsFrom (s : Nat) : List CharFormat → List (Nat × Nat × CharFormat)
  | [] => []
  | f :: rest =>
      let run := rest.takeWhile (fun g => g == f)
      (s, run.length + 1, f) :: fragmentsFrom (s + (run.length + 1)) (rest.drop run.length)
termination_by fmts => fmts.length
decreasing_by
  simp only [List.length_drop, List.length_cons]
  omega

/-- One iteration of the fragment loop of `set_textblk_family` (lines
115-134): clip the fragment to the selection; when the clipped range is not
empty, rebuild the fragment font with the new family (`QFont(family,
pointSizeF, weight, italic)` followed by `setBold(bold())` — a no-op —,
`setWordSpacing`, `setLetterSpacing`), restore the underline flag, and
apply the format to the clipped range through the cursor. -/
def familyStep (family : String) (sel_start sel_end : Nat)
    (acc : QTextDocument × QTextCursor) (frag : Nat × Nat × CharFormat) :
    QTextDocument × QTextCursor :=
  let frag_start := frag.1
  let frag_end := frag_start + frag.2.1
  let pos2 := min frag_end sel_end
  let pos1 := max frag_start sel_start
  if pos1 < pos2 then
    let cfmt := frag.2.2
    let under_line := cfmt.font.underline
    let cfont := cfmt.font
    let font : QFont :=
      { family := family, pointSizeF := cfont.pointSizeF, weight := cfont.weight,
        italic := cfont.italic, underline := false,
        wordSpacing := 0, letterSpacingType := 0, letterSpacing := 0 }
    let font := { font with wordSpacing := cfont.wordSpacing }
    let font := { font with
      letterSpacingType := cfont.letterSpacingType, letterSpacing := cfont.letterSpacing }
    let cfmt := { cfmt with font := font }
    let cfmt := { cfmt with font := { cfmt.font with underline := under_line } }
    let cur := (acc.2.setPosition pos1).setPositionKeepAnchor pos2
    cur.setCharFormat acc.1 cfmt
  else acc

/-- Body of `set_textblk_family`, lines 99-135 (the commented-out
default-font branch of the source is omitted, as in the source). -/
def set_textblk_family_fn (blkitem : TextBlkItem) (cursor : QTextCursor) (family : String) :
    TextBlkItem × QTextCursor :=
  let doc := blkitem.document
  let sel_start := cursor.selectionStart
  let sel_end := cursor.selectionEnd
  let frags := fragmentsFrom 0 (doc.chars.map Prod.snd)
  let res := frags.foldl (familyStep family sel_start sel_end) (doc, cursor)
  ({ blkitem with doc := res.1 }, res.2)

def set_textblk_family (blkitem : Option TextBlkItem) (family : String) : Option TextBlkItem :=
  restore_textcursor (fun b c => set_textblk_family_fn b c family) blkitem

/-!
`AlignmentChecker` and `AlignmentBtnGroup` (fontformatpanel.py lines
150-207).  The three checkbox states are the only state of the group; the
emitted alignment integer of `alignBtnPressed` is returned alongside the new
state.
-/

structure AlignmentBtnGroup where
  alignLeftChecker : Bool
  alignCenterChecker : Bool
  alignRightChecker : Bool
deriving DecidableEq, Repr

inductive AlignSender where
  | leftChecker
  | centerChecker
  | rightChecker
deriving DecidableEq, Repr

/-- Outcome of a widget mouse-press handler: the event was accepted by the
override, or passed to the superclass handler. -/
inductive PressOutcome where
  | accepted
  | superclass
deriving DecidableEq, Repr

/-- `AlignmentChecker.mousePressEvent`, lines 151-154: a press on a checked
checker is accepted without any further processing (the checked state is
untouched); otherwise the event goes to the `QCheckBox` handler. -/
def AlignmentChecker.mousePressEvent (isChecked : Bool) : Bool × PressOutcome :=
  if isChecked then (isChecked, PressOutcome.accepted)
  else (isChecked, PressOutcome.superclass)

/-- `AlignmentBtnGroup.alignBtnPressed`, lines 177-193: the sender becomes
the only checked checker and the corresponding integer is emitted on
`set_alignment`. -/
def AlignmentBtnGroup.alignBtnPressed (st : AlignmentBtnGroup) (sender : AlignSender) :
    AlignmentBtnGroup × Nat :=
  if sender = AlignSender.leftChecker then
    ({ st with alignLeftChecker := true, alignCenterChecker := false, alignRightChecker := false }, 0)
  else if sender = AlignSender.rightChecker then
    ({ st with alignRightChecker := true, alignCenterChecker := false, alignLeftChecker := false }, 2)
  else
    ({ st with alignCenterChecker := true, alignLeftChecker := false, alignRightChecker := false }, 1)

/-- `AlignmentBtnGroup.setAlignment`, lines 195-207. -/
def AlignmentBtnGroup.setAlignment (st : AlignmentBtnGroup) (alignment : Nat) :
    AlignmentBtnGroup :=
  if alignment = 0 then
    { st with alignLeftChecker := true, alignCenterChecker := false, alignRightChecker := false }
  else if alignment = 1 then
    { st with alignLeftChecker := false, alignCenterChecker := true, alignRightChecker := false }
  else
    { st with alignLeftChecker := false, alignCenterChecker := false, alignRightChecker := true }

/-- Exactly one of the three checkers is checked. -/
def exactlyOneChecked (st : AlignmentBtnGroup) : Prop :=
  (cond st.alignLeftChecker 1 0) + (cond st.alignCenterChecker 1 0) +
    (cond st.alignRightChecker 1 0) = 1

instance (st : AlignmentBtnGroup) : Decidable (exactlyOneChecked st) := by
  unfold exactlyOneChecked
  infer_instance

/-- The group state encoding alignment `i` (0 = left, 1 = center,
2 = right). -/
def checkedStateOf : Nat → AlignmentBtnGroup
  | 0 => { alignLeftChecker := true, alignCenterChecker := false, alignRightChecker := false }
  | 1 => { alignLeftChecker := false, alignCenterChecker := true, alignRightChecker := false }
  | _ => { alignLeftChecker := false, alignCenterChecker := false, alignRightChecker := true }

/-!
`FontSizeBox` (fontformatpanel.py lines 273-332).  `onUpBtnClicked` and
`onDownBtnClicked` read the current size from the combo box, compute a new
integer size with Python `round` (round half to even) and emit it on
`apply_fontsize` when it differs from the current size; the model returns
the emitted value, `none` when nothing is emitted.
-/

/-- Python `round` to an integer: round half to even. -/
def pyround (x : Rat) : Int :=
  let f := Int.floor x
  let frac := x - f
  if frac < 1/2 then f
  else if 1/2 < frac then f + 1
  else if f % 2 = 0 then f else f + 1

/-- `FontSizeBox.onUpBtnClicked`, lines 309-317. -/
def FontSizeBox.onUpBtnClicked (size : Rat) : Option Int :=
  let newsize := pyround (size * (5/4))
  let newsize := if (newsize : Rat) = size then newsize + 1 else newsize
  let newsize := min 1000 newsize
  if (newsize : Rat) ≠ size then some newsize else none

/-- `FontSizeBox.onDownBtnClicked`, lines 319-327. -/
def FontSizeBox.onDownBtnClicked (size : Rat) : Option Int :=
  let newsize := pyround (size * (3/4))
  let newsize := if (newsize : Rat) = size then newsize - 1 else newsize
  let newsize := max 1 newsize
  if (newsize : Rat) ≠ size then some newsize else none

/-!
`FontFormatPanel` (fontformatpanel.py lines 335-560).  The panel holds the
global format and, when a text block is selected, that block format;
`active_format` is a Python reference to one of the two, which the model
captures with an `ActiveRef` tag (the `==` of `restoreTextBlkItem` is the
default object identity of `FontFormat`, which is defined in `ui/misc.py`,
not under `src/`, and modelled from the spec as identity).  Widget echo
(combo box texts, picker colors, checker states) is not part of any claim
and is not modelled; the values the handlers read from their widgets are
passed as arguments.  Each handler returns the new panel together with a
flag telling whether `global_format_changed` was emitted.
-/

inductive ActiveRef where
  | globalFmt
  | blockFmt
deriving DecidableEq, Repr

structure FontFormatPanel where
  global_format : FontFormat
  blk_format : FontFormat
  textblk_item : Option TextBlkItem
  active : ActiveRef
  focusOnColorDialog : Bool
  restoring_textblk : Bool
  fontfmtLabel : String
deriving DecidableEq, Repr

def global_fontfmt_str : String := "Global Font Format"

/-- The format object `self.active_format` currently refers to. -/
def FontFormatPanel.active_format (p : FontFormatPanel) : FontFormat :=
  match p.active with
  | ActiveRef.globalFmt => p.global_format
  | ActiveRef.blockFmt => p.blk_format

/-- Mutation of an attribute of `self.active_format`: through the reference
it updates the referred-to format. -/
def FontFormatPanel.updateActive (p : FontFormatPanel) (g : FontFormat → FontFormat) :
    FontFormatPanel :=
  match p.active with
  | ActiveRef.globalFmt => { p with global_format := g p.global_format }
  | ActiveRef.blockFmt => { p with blk_format := g p.blk_format }

/-- `FontFormatPanel.restoreTextBlkItem`, lines 448-450: emit
`global_format_changed` when `active_format == global_format` (object
identity). -/
def FontFormatPanel.restoreTextBlkItem (p : FontFormatPanel) : Bool :=
  p.active = ActiveRef.globalFmt

/-- `FontFormatPanel.onColorChanged`, lines 455-460; `picker_rgb` is
`self.colorPicker.rgb()`. -/
def FontFormatPanel.onColorChanged (p : FontFormatPanel) (picker_rgb : Rgb) (is_valid : Bool) :
    FontFormatPanel × Bool :=
  let p := p.updateActive fun f => { f with frgb := picker_rgb }
  let p := { p with focusOnColorDialog := false }
  let emitted := p.restoreTextBlkItem
  let p :=
    if is_valid then { p with textblk_item := set_textblk_color p.textblk_item p.active_format.frgb }
    else p
  (p, emitted)

/-- `FontFormatPanel.onStrokeColorChanged`, lines 462-467. -/
def FontFormatPanel.onStrokeColorChanged (p : FontFormatPanel) (picker_rgb : Rgb) (is_valid : Bool) :
    FontFormatPanel × Bool :=
  let p := p.updateActive fun f => { f with srgb := picker_rgb }
  let p := { p with focusOnColorDialog := false }
  let emitted := p.restoreTextBlkItem
  let p :=
    if is_valid then { p with textblk_item := set_textblk_strokecolor p.textblk_item p.active_format.srgb }
    else p
  (p, emitted)

/-- `FontFormatPanel.onApplyFontsize`, lines 469-472. -/
def FontFormatPanel.onApplyFontsize (p : FontFormatPanel) (font_size : Rat) :
    FontFormatPanel × Bool :=
  let p := p.updateActive fun f => { f with size := font_size }
  let emitted := p.restoreTextBlkItem
  let p := { p with textblk_item := set_textblk_fontsize p.textblk_item p.active_format.size }
  (p, emitted)

/-- `FontFormatPanel.onfontFamilyChanged`, lines 474-478; `hasFocus` is
`self.familybox.hasFocus()` and `family` the current text of the combo
box.  Without focus the handler does nothing. -/
def FontFormatPanel.onfontFamilyChanged (p : FontFormatPanel) (hasFocus : Bool) (family : String) :
    FontFormatPanel × Bool :=
  if hasFocus then
    let p := p.updateActive fun f => { f with family := family }
    let emitted := p.restoreTextBlkItem
    let p := { p with textblk_item := set_textblk_family p.textblk_item p.active_format.family }
    (p, emitted)
  else (p, false)

/-- Qt font weights used by the panel. -/
def QFontBold : Nat := 75
def QFontNormal : Nat := 50

/-- `FontFormatPanel.onfontBoldChanged`, lines 480-488. -/
def FontFormatPanel.onfontBoldChanged (p : FontFormatPanel) (checked : Bool) :
    FontFormatPanel × Bool :=
  let p :=
    if checked then p.updateActive fun f => { f with weight := QFontBold, bold := true }
    else p.updateActive fun f => { f with weight := QFontNormal, bold := false }
  let emitted := p.restoreTextBlkItem
  let p := { p with textblk_item := set_textblk_weight p.textblk_item p.active_format.weight }
  (p, emitted)

/-- `FontFormatPanel.onfontUnderlineChanged`, lines 490-493. -/
def FontFormatPanel.onfontUnderlineChanged (p : FontFormatPanel) (checked : Bool) :
    FontFormatPanel × Bool :=
  let p := p.updateActive fun f => { f with underline := checked }
  let emitted := p.restoreTextBlkItem
  let p := { p with textblk_item := set_textblk_underline p.textblk_item p.active_format.underline }
  (p, emitted)

/-- `FontFormatPanel.onfontItalicChanged`, lines 495-498. -/
def FontFormatPanel.onfontItalicChanged (p : FontFormatPanel) (checked : Bool) :
    FontFormatPanel × Bool :=
  let p := p.updateActive fun f => { f with italic := checked }
  let emitted := p.restoreTextBlkItem
  let p := { p with textblk_item := set_textblk_italic p.textblk_item p.active_format.italic }
  (p, emitted)

/-- `FontFormatPanel.onAlignmentChanged`, lines 500-503 (the emission
happens after the formatting call there). -/
def FontFormatPanel.onAlignmentChanged (p : FontFormatPanel) (alignment : Nat) :
    FontFormatPanel × Bool :=
  let p := p.updateActive fun f => { f with alignment := alignment }
  let p := { p with textblk_item := set_textblk_alignment p.textblk_item p.active_format.alignment }
  let emitted := p.restoreTextBlkItem
  (p, emitted)

/-- `FontFormatPanel.onOrientationChanged`, lines 505-509; `checked` is
`self.verticalChecker.isChecked()`. -/
def FontFormatPanel.onOrientationChanged (p : FontFormatPanel) (checked : Bool) :
    FontFormatPanel × Bool :=
  let p := p.updateActive fun f => { f with vertical := checked }
  let emitted := p.restoreTextBlkItem
  let p :=
    match p.textblk_item with
    | some blk => { p with textblk_item := some (blk.setVertical p.active_format.vertical) }
    | none => p
  (p, emitted)

/-- `FontFormatPanel.update_stroke_width`, lines 514-517 (the body of
`onSrokeWidthChanged`). -/
def FontFormatPanel.update_stroke_width (p : FontFormatPanel) (value : Rat) :
    FontFormatPanel × Bool :=
  let p := p.updateActive fun f => { f with stroke_width := value }
  let emitted := p.restoreTextBlkItem
  let p := { p with textblk_item := set_textblk_strokewidth p.textblk_item p.active_format.stroke_width }
  (p, emitted)

/-- `FontFormatPanel.update_line_spacing`, lines 522-525 (the body of
`onLinespacingChanged`). -/
def FontFormatPanel.update_line_spacing (p : FontFormatPanel) (value : Rat) :
    FontFormatPanel × Bool :=
  let p := p.updateActive fun f => { f with line_spacing := value }
  let emitted := p.restoreTextBlkItem
  let p := { p with textblk_item := set_textblk_linespacing p.textblk_item p.active_format.line_spacing }
  (p, emitted)

/-- `FontFormatPanel.set_active_format`, lines 527-539: the given reference
becomes the active format (the widget echo of its values is not
modelled). -/
def FontFormatPanel.set_active_format (p : FontFormatPanel) (r : ActiveRef) : FontFormatPanel :=
  { p with active := r }

/-- `FontFormatPanel.set_textblk_item`, lines 541-560.
`focusParentNearPanel` stands for `focus_p` being truthy and equal to the
panel or having the panel as parent (lines 548-550). -/
def FontFormatPanel.set_textblk_item (p : FontFormatPanel) (textblk_item : Option TextBlkItem)
    (focusParentNearPanel : Bool) : FontFormatPanel :=
  match textblk_item with
  | none =>
      let focus_on_fmtoptions :=
        if p.focusOnColorDialog then true else focusParentNearPanel
      if !focus_on_fmtoptions then
        let p := { p with textblk_item := none }
        let p := p.set_active_format ActiveRef.globalFmt
        { p with fontfmtLabel := global_fontfmt_str }
      else p
  | some blk =>
      if !p.restoring_textblk then
        let p := { p with blk_format := blk.get_fontformat, textblk_item := some blk }
        let p := p.set_active_format ActiveRef.blockFmt
        { p with fontfmtLabel := "TextBlock #" ++ toString blk.idx }
      else p

/-!
Concrete sample data used by witnesses and counterexamples.
-/

def font0 : QFont :=
  { family := "Arial", pointSizeF := 10, weight := 50, italic := false, underline := false,
    wordSpacing := 0, letterSpacingType := 0, letterSpacing := 0 }

def fmt0 : CharFormat := { font := font0, foreground := [0, 0, 0] }

def fontfmt0 : FontFormat :=
  { family := "Arial", size := 10, stroke_width := 0, frgb := [0, 0, 0], srgb := [0, 0, 0],
    bold := false, weight := 50, underline := false, italic := false, alignment := 0,
    vertical := false, line_spacing := 1 }

def doc0 : QTextDocument :=
  { chars := [('a', fmt0), ('b', fmt0), ('c', fmt0)], blockCharFormat := fmt0,
    defaultFont := font0, relayouts := 0 }

/-- A block item whose cursor holds a backward selection: position 0,
anchor 2. -/
def blkBack : TextBlkItem :=
  { doc := doc0, cursor := { position := 0, anchor := 2, charFormat := fmt0 },
    stroke_width := 0, stroke_color := [0, 0, 0], alignmentFlag := QtAlign.AlignLeft,
    line_spacing := 1, vertical := false, repaints := 0, fontformat := fontfmt0, idx := 0 }

/-!
Basic lemmas about the embedded Qt operations.
-/

@[simp]
theorem TextBlkItem.textCursor_setTextCursor (b : TextBlkItem) (c : QTextCursor) :
    (b.setTextCursor c).textCursor = c := rfl

@[simp]
theorem TextBlkItem.textCursor_repaint (b : TextBlkItem) :
    b.repaint_background.textCursor = b.textCursor := rfl

theorem applyFmtInRange_getElem (g : CharFormat → CharFormat) (a b : Nat) :
    ∀ (l : List (Char × CharFormat)) (i p : Nat),
      (applyFmtInRange g a b i l)[p]? =
        (l[p]?).map fun cf => if a ≤ i + p ∧ i + p < b then (cf.1, g cf.2) else cf := by
  intro l
  induction l with
  | nil => intro i p; simp [applyFmtInRange]
  | cons hd tl ih =>
      intro i p
      cases p with
      | zero => simp [applyFmtInRange]
      | succ q =>
          simp only [applyFmtInRange, List.getElem?_cons_succ]
          rw [ih (i + 1) q]
          have : i + 1 + q = i + (q + 1) := by omega
          rw [this]

theorem applyFmtInRange_length (g : CharFormat → CharFormat) (a b : Nat) :
    ∀ (l : List (Char × CharFormat)) (i : Nat),
      (applyFmtInRange g a b i l).length = l.length := by
  intro l
  induction l with
  | nil => intro i; simp [applyFmtInRange]
  | cons hd tl ih => intro i; simp [applyFmtInRange, ih]

/--
C1: in `restore_textcursor`, a wrapped formatting function on a non-`None`
block item is invoked exactly at `invoked_cursor`, which is the whole
document selection (selection start 0, selection end at the last position
of the root frame) when the block cursor has no selection, and the block
cursor itself, selection untouched, when it has one; the rest of the
wrapper is the cursor restore `restore_finish`.
-/
theorem restore_textcursor_effective_selection
    (f : TextBlkItem → QTextCursor → TextBlkItem × QTextCursor) (b : TextBlkItem) :
    restore_textcursor f (some b) = some (restore_finish b (f b (invoked_cursor b))) ∧
      (if b.textCursor.hasSelection then invoked_cursor b = b.textCursor
       else (invoked_cursor b).selectionStart = 0 ∧
         (invoked_cursor b).selectionEnd = b.document.rootFrameLastPosition) := by
  cases hsel : b.textCursor.hasSelection with
  | false =>
      refine ⟨?_, ?_⟩
      · simp [restore_textcursor, restore_finish, invoked_cursor, hsel]
      · simp [invoked_cursor, hsel, QTextCursor.selectDocument, QTextCursor.selectionStart,
          QTextCursor.selectionEnd, QTextDocument.rootFrameLastPosition, TextBlkItem.document]
  | true =>
      refine ⟨?_, ?_⟩
      · simp [restore_textcursor, restore_finish, invoked_cursor, hsel]
      · simp [invoked_cursor, hsel]

/--
C2 (amended): after any operation wrapped by `restore_textcursor` on a
non-`None` block item, the cursor set back on the block item spans the very
same selection range as before: its anchor is the old selection start, its
position the old selection end, and it has a selection exactly when the old
cursor had one (for a forward or empty selection this preserves position
and anchor exactly; a backward selection comes back normalized, anchor
before position).
-/
theorem restore_textcursor_restores_selection_range
    (f : TextBlkItem → QTextCursor → TextBlkItem × QTextCursor) (b : TextBlkItem) :
    ∃ b2, restore_textcursor f (some b) = some b2 ∧
      b2.textCursor.anchor = b.textCursor.selectionStart ∧
      b2.textCursor.position = b.textCursor.selectionEnd ∧
      (b2.textCursor.hasSelection = true ↔ b.textCursor.hasSelection = true) := by
  refine ⟨_, rfl, ?_, ?_, ?_⟩ <;>
    cases hsel : b.textCursor.hasSelection
  · have hpa : b.textCursor.position = b.textCursor.anchor := by
      simpa [QTextCursor.hasSelection, bne_eq_false_iff_eq] using hsel
    simp [restore_textcursor, hsel, apply_ite TextBlkItem.textCursor,
      QTextCursor.setPosition, QTextCursor.selectionStart, hpa]
  · simp [restore_textcursor, hsel, apply_ite TextBlkItem.textCursor,
      QTextCursor.setPosition, QTextCursor.setPositionKeepAnchor, QTextCursor.selectionStart]
  · have hpa : b.textCursor.position = b.textCursor.anchor := by
      simpa [QTextCursor.hasSelection, bne_eq_false_iff_eq] using hsel
    simp [restore_textcursor, hsel, apply_ite TextBlkItem.textCursor,
      QTextCursor.setPosition, QTextCursor.selectionEnd, hpa]
  · simp [restore_textcursor, hsel, apply_ite TextBlkItem.textCursor,
      QTextCursor.setPosition, QTextCursor.setPositionKeepAnchor, QTextCursor.selectionEnd]
  · have hpa : b.textCursor.position = b.textCursor.anchor := by
      simpa [QTextCursor.hasSelection, bne_eq_false_iff_eq] using hsel
    simp [restore_textcursor, hsel, apply_ite TextBlkItem.textCursor,
      QTextCursor.setPosition, QTextCursor.hasSelection, hpa]
  · have hpa : b.textCursor.position ≠ b.textCursor.anchor := by
      simpa [QTextCursor.hasSelection, bne_iff_ne] using hsel
    have hne : max b.textCursor.position b.textCursor.anchor ≠
        min b.textCursor.position b.textCursor.anchor := by omega
    simp [restore_textcursor, hsel, apply_ite TextBlkItem.textCursor,
      QTextCursor.setPosition, QTextCursor.setPositionKeepAnchor, QTextCursor.hasSelection,
      bne_iff_ne, hne, hpa]

/--
C2 (counterexample): on a block item whose cursor is a backward selection
(position 0, anchor 2), `set_textblk_weight` hands back a cursor whose
position is 2, not the position 0 the cursor had before the operation, so
the original claim "the cursor has the same position and the same anchor as
before" fails.
-/
theorem restore_textcursor_cursor_swap_cex :
    (set_textblk_weight (some blkBack) 75).map (fun b2 => b2.textCursor.position) ≠
      some blkBack.textCursor.position := by decide

/--
C8: every `set_textblk_*` operation invoked with `blkitem = None` is a
no-op: the decorator's guard returns immediately, producing no updated
state at all.
-/
theorem set_textblk_ops_none_noop :
    ∀ (rgb stroke_color : Rgb) (fontsize stroke_width line_spacing : Rat)
      (weight alignment : Nat) (italic underline : Bool) (family : String),
      set_textblk_color none rgb = none ∧
      set_textblk_fontsize none fontsize = none ∧
      set_textblk_weight none weight = none ∧
      set_textblk_italic none italic = none ∧
      set_textblk_underline none underline = none ∧
      set_textblk_alignment none alignment = none ∧
      set_textblk_strokewidth none stroke_width = none ∧
      set_textblk_strokecolor none stroke_color = none ∧
      set_textblk_family none family = none ∧
      set_textblk_linespacing none line_spacing = none :=
  fun _ _ _ _ _ _ _ _ _ _ =>
    ⟨rfl, rfl, rfl, rfl, rfl, rfl, rfl, rfl, rfl, rfl⟩

/--
C10: `AlignmentBtnGroup` keeps the three checkers mutually exclusive: after
`alignBtnPressed` exactly one checker is checked and the emitted integer
encodes it (0 = left, 1 = center, 2 = right, always below 3); after
`setAlignment` with an alignment in 0..2 the encoded checker is the only
checked one; and a mouse press on an already-checked `AlignmentChecker` is
accepted without unchecking it.
-/
theorem alignment_btn_group_spec (st : AlignmentBtnGroup) (sender : AlignSender)
    (alignment : Nat) :
    (exactlyOneChecked (st.alignBtnPressed sender).1 ∧
      (st.alignBtnPressed sender).1 = checkedStateOf (st.alignBtnPressed sender).2 ∧
      (st.alignBtnPressed sender).2 < 3) ∧
    (exactlyOneChecked (st.setAlignment alignment) ∧
      (alignment < 3 → st.setAlignment alignment = checkedStateOf alignment)) ∧
    AlignmentChecker.mousePressEvent true = (true, PressOutcome.accepted) := by
  have eL : exactlyOneChecked
      { alignLeftChecker := true, alignCenterChecker := false, alignRightChecker := false } := by
    decide
  have eC : exactlyOneChecked
      { alignLeftChecker := false, alignCenterChecker := true, alignRightChecker := false } := by
    decide
  have eR : exactlyOneChecked
      { alignLeftChecker := false, alignCenterChecker := false, alignRightChecker := true } := by
    decide
  refine ⟨?_, ⟨?_, ?_⟩, rfl⟩
  · cases sender
    · exact ⟨eL, rfl, (by decide : (0 : Nat) < 3)⟩
    · exact ⟨eC, rfl, (by decide : (1 : Nat) < 3)⟩
    · exact ⟨eR, rfl, (by decide : (2 : Nat) < 3)⟩
  · unfold AlignmentBtnGroup.setAlignment
    split_ifs
    · exact eL
    · exact eC
    · exact eR
  · intro h
    match alignment, h with
    | 0, _ => rfl
    | 1, _ => rfl
    | 2, _ => rfl

/--
C10 (witness): the specification applied at the concrete group state with
all checkers unchecked and alignment 1.
-/
theorem alignment_btn_group_spec_witness :
    (1 : Nat) < 3 ∧
      AlignmentBtnGroup.setAlignment
        { alignLeftChecker := false, alignCenterChecker := false, alignRightChecker := false } 1 =
        checkedStateOf 1 :=
  ⟨by decide,
    (alignment_btn_group_spec
      { alignLeftChecker := false, alignCenterChecker := false, alignRightChecker := false }
      AlignSender.leftChecker 1).2.1.2 (by decide)⟩

/--
C7: `set_textblk_item` with `None` switches the panel back to the global
format (clears `textblk_item`, makes the global format active, resets the
label) exactly when focus is not on the format options (no color dialog
open and the focused widget is not parented under the panel); with a block
item it installs that block format as the active format and stores the
block, unless the panel is restoring.
-/
theorem set_textblk_item_spec (p : FontFormatPanel) (focusNear : Bool) (blk : TextBlkItem) :
    (p.set_textblk_item none focusNear =
      if p.focusOnColorDialog = false ∧ focusNear = false then
        { p with textblk_item := none, active := ActiveRef.globalFmt,
                 fontfmtLabel := global_fontfmt_str }
      else p) ∧
    (p.set_textblk_item (some blk) focusNear =
      if p.restoring_textblk = false then
        { p with blk_format := blk.get_fontformat, textblk_item := some blk,
                 active := ActiveRef.blockFmt,
                 fontfmtLabel := "TextBlock #" ++ toString blk.idx }
      else p) := by
  constructor
  · cases hc : p.focusOnColorDialog <;> cases focusNear <;>
      simp [FontFormatPanel.set_textblk_item, FontFormatPanel.set_active_format, hc]
  · cases hr : p.restoring_textblk <;>
      simp [FontFormatPanel.set_textblk_item, FontFormatPanel.set_active_format, hr]

theorem FontFormatPanel.updateActive_active (p : FontFormatPanel) (g : FontFormat → FontFormat) :
    (p.updateActive g).active = p.active := by
  cases hp : p.active <;> simp [FontFormatPanel.updateActive, hp]

theorem FontFormatPanel.updateActive_active_format (p : FontFormatPanel)
    (g : FontFormat → FontFormat) :
    (p.updateActive g).active_format = g p.active_format := by
  cases hp : p.active <;>
    simp [FontFormatPanel.updateActive, FontFormatPanel.active_format, hp]

theorem onColorChanged_spec (p : FontFormatPanel) (rgb : Rgb) (v : Bool) :
    (p.onColorChanged rgb v).1.active_format.frgb = rgb ∧
      ((p.onColorChanged rgb v).2 = true ↔ p.active = ActiveRef.globalFmt) := by
  cases hp : p.active <;> cases v <;>
    simp [FontFormatPanel.onColorChanged, FontFormatPanel.updateActive,
      FontFormatPanel.active_format, FontFormatPanel.restoreTextBlkItem, hp]

theorem onStrokeColorChanged_spec (p : FontFormatPanel) (rgb : Rgb) (v : Bool) :
    (p.onStrokeColorChanged rgb v).1.active_format.srgb = rgb ∧
      ((p.onStrokeColorChanged rgb v).2 = true ↔ p.active = ActiveRef.globalFmt) := by
  cases hp : p.active <;> cases v <;>
    simp [FontFormatPanel.onStrokeColorChanged, FontFormatPanel.updateActive,
      FontFormatPanel.active_format, FontFormatPanel.restoreTextBlkItem, hp]

theorem onApplyFontsize_spec (p : FontFormatPanel) (fs : Rat) :
    (p.onApplyFontsize fs).1.active_format.size = fs ∧
      ((p.onApplyFontsize fs).2 = true ↔ p.active = ActiveRef.globalFmt) := by
  cases hp : p.active <;>
    simp [FontFormatPanel.onApplyFontsize, FontFormatPanel.updateActive,
      FontFormatPanel.active_format, FontFormatPanel.restoreTextBlkItem, hp]

theorem onfontFamilyChanged_spec (p : FontFormatPanel) (fam : String) :
    (p.onfontFamilyChanged true fam).1.active_format.family = fam ∧
      ((p.onfontFamilyChanged true fam).2 = true ↔ p.active = ActiveRef.globalFmt) := by
  cases hp : p.active <;>
    simp [FontFormatPanel.onfontFamilyChanged, FontFormatPanel.updateActive,
      FontFormatPanel.active_format, FontFormatPanel.restoreTextBlkItem, hp]

theorem onfontBoldChanged_spec (p : FontFormatPanel) (checked : Bool) :
    (p.onfontBoldChanged checked).1.active_format.weight =
        (if checked then QFontBold else QFontNormal) ∧
      (p.onfontBoldChanged checked).1.active_format.bold = checked ∧
      ((p.onfontBoldChanged checked).2 = true ↔ p.active = ActiveRef.globalFmt) := by
  cases hp : p.active <;> cases checked <;>
    simp [FontFormatPanel.onfontBoldChanged, FontFormatPanel.updateActive,
      FontFormatPanel.active_format, FontFormatPanel.restoreTextBlkItem, hp]

theorem onfontUnderlineChanged_spec (p : FontFormatPanel) (checked : Bool) :
    (p.onfontUnderlineChanged checked).1.active_format.underline = checked ∧
      ((p.onfontUnderlineChanged checked).2 = true ↔ p.active = ActiveRef.globalFmt) := by
  cases hp : p.active <;>
    simp [FontFormatPanel.onfontUnderlineChanged, FontFormatPanel.updateActive,
      FontFormatPanel.active_format, FontFormatPanel.restoreTextBlkItem, hp]

theorem onfontItalicChanged_spec (p : FontFormatPanel) (checked : Bool) :
    (p.onfontItalicChanged checked).1.active_format.italic = checked ∧
      ((p.onfontItalicChanged checked).2 = true ↔ p.active = ActiveRef.globalFmt) := by
  cases hp : p.active <;>
    simp [FontFormatPanel.onfontItalicChanged, FontFormatPanel.updateActive,
      FontFormatPanel.active_format, FontFormatPanel.restoreTextBlkItem, hp]

theorem onAlignmentChanged_spec (p : FontFormatPanel) (al : Nat) :
    (p.onAlignmentChanged al).1.active_format.alignment = al ∧
      ((p.onAlignmentChanged al).2 = true ↔ p.active = ActiveRef.globalFmt) := by
  cases hp : p.active <;>
    simp [FontFormatPanel.onAlignmentChanged, FontFormatPanel.updateActive,
      FontFormatPanel.active_format, FontFormatPanel.restoreTextBlkItem, hp]

theorem onOrientationChanged_spec (p : FontFormatPanel) (checked : Bool) :
    (p.onOrientationChanged checked).1.active_format.vertical = checked ∧
      ((p.onOrientationChanged checked).2 = true ↔ p.active = ActiveRef.globalFmt) := by
  cases hp : p.active <;> cases hb : p.textblk_item <;>
    simp [FontFormatPanel.onOrientationChanged, FontFormatPanel.updateActive,
      FontFormatPanel.active_format, FontFormatPanel.restoreTextBlkItem, hp, hb]

theorem update_stroke_width_spec (p : FontFormatPanel) (v : Rat) :
    (p.update_stroke_width v).1.active_format.stroke_width = v ∧
      ((p.update_stroke_width v).2 = true ↔ p.active = ActiveRef.globalFmt) := by
  cases hp : p.active <;>
    simp [FontFormatPanel.update_stroke_width, FontFormatPanel.updateActive,
      FontFormatPanel.active_format, FontFormatPanel.restoreTextBlkItem, hp]

theorem update_line_spacing_spec (p : FontFormatPanel) (v : Rat) :
    (p.update_line_spacing v).1.active_format.line_spacing = v ∧
      ((p.update_line_spacing v).2 = true ↔ p.active = ActiveRef.globalFmt) := by
  cases hp : p.active <;>
    simp [FontFormatPanel.update_line_spacing, FontFormatPanel.updateActive,
      FontFormatPanel.active_format, FontFormatPanel.restoreTextBlkItem, hp]

/--
C4: every format-change handler of `FontFormatPanel` writes the incoming
value into the corresponding attribute of the active format, and emits
`global_format_changed` exactly when the active format is the global
format (the family handler acts when its combo box has focus, which is the
only situation in which its body runs).
-/
theorem fontformatpanel_handlers_spec (p : FontFormatPanel) (rgb srgb : Rgb)
    (v1 v2 : Bool) (fs : Rat) (fam : String) (bold checkedU checkedI checkedV : Bool)
    (al : Nat) (sw ls : Rat) :
    ((p.onColorChanged rgb v1).1.active_format.frgb = rgb ∧
      ((p.onColorChanged rgb v1).2 = true ↔ p.active = ActiveRef.globalFmt)) ∧
    ((p.onStrokeColorChanged srgb v2).1.active_format.srgb = srgb ∧
      ((p.onStrokeColorChanged srgb v2).2 = true ↔ p.active = ActiveRef.globalFmt)) ∧
    ((p.onApplyFontsize fs).1.active_format.size = fs ∧
      ((p.onApplyFontsize fs).2 = true ↔ p.active = ActiveRef.globalFmt)) ∧
    ((p.onfontFamilyChanged true fam).1.active_format.family = fam ∧
      ((p.onfontFamilyChanged true fam).2 = true ↔ p.active = ActiveRef.globalFmt)) ∧
    ((p.onfontBoldChanged bold).1.active_format.weight =
        (if bold then QFontBold else QFontNormal) ∧
      (p.onfontBoldChanged bold).1.active_format.bold = bold ∧
      ((p.onfontBoldChanged bold).2 = true ↔ p.active = ActiveRef.globalFmt)) ∧
    ((p.onfontUnderlineChanged checkedU).1.active_format.underline = checkedU ∧
      ((p.onfontUnderlineChanged checkedU).2 = true ↔ p.active = ActiveRef.globalFmt)) ∧
    ((p.onfontItalicChanged checkedI).1.active_format.italic = checkedI ∧
      ((p.onfontItalicChanged checkedI).2 = true ↔ p.active = ActiveRef.globalFmt)) ∧
    ((p.onAlignmentChanged al).1.active_format.alignment = al ∧
      ((p.onAlignmentChanged al).2 = true ↔ p.active = ActiveRef.globalFmt)) ∧
    ((p.onOrientationChanged checkedV).1.active_format.vertical = checkedV ∧
      ((p.onOrientationChanged checkedV).2 = true ↔ p.active = ActiveRef.globalFmt)) ∧
    ((p.update_stroke_width sw).1.active_format.stroke_width = sw ∧
      ((p.update_stroke_width sw).2 = true ↔ p.active = ActiveRef.globalFmt)) ∧
    ((p.update_line_spacing ls).1.active_format.line_spacing = ls ∧
      ((p.update_line_spacing ls).2 = true ↔ p.active = ActiveRef.globalFmt)) :=
  ⟨onColorChanged_spec p rgb v1, onStrokeColorChanged_spec p srgb v2,
    onApplyFontsize_spec p fs, onfontFamilyChanged_spec p fam,
    onfontBoldChanged_spec p bold, onfontUnderlineChanged_spec p checkedU,
    onfontItalicChanged_spec p checkedI, onAlignmentChanged_spec p al,
    onOrientationChanged_spec p checkedV, update_stroke_width_spec p sw,
    update_line_spacing_spec p ls⟩

theorem applyTo_fontPointSize (fontsize : Rat) (cf : CharFormat) :
    QTextCharFormat.applyTo { fontPointSize := some fontsize } cf =
      { cf with font := { cf.font with pointSizeF := fontsize } } := rfl

/--
C3: `set_textblk_fontsize` merges the point size into the character format
of every position of the effective selection and into the block character
format, and it updates the document default font point size exactly when
the effective selection spans the whole document (selection start 0 and
selection end at the last position of the root frame); for a proper
sub-range the default font is untouched.
-/
theorem set_textblk_fontsize_spec (b : TextBlkItem) (cursor : QTextCursor) (fontsize : Rat) :
    (∀ p : Nat,
      (set_textblk_fontsize_fn b cursor fontsize).1.doc.chars[p]? =
        (b.doc.chars[p]?).map fun cf =>
          if cursor.selectionStart ≤ p ∧ p < cursor.selectionEnd then
            (cf.1, { cf.2 with font := { cf.2.font with pointSizeF := fontsize } })
          else cf) ∧
    (set_textblk_fontsize_fn b cursor fontsize).1.doc.blockCharFormat =
      { b.doc.blockCharFormat with
        font := { b.doc.blockCharFormat.font with pointSizeF := fontsize } } ∧
    (set_textblk_fontsize_fn b cursor fontsize).1.doc.defaultFont =
      (if cursor.selectionStart = 0 ∧ cursor.selectionEnd = b.doc.rootFrameLastPosition then
        { b.doc.defaultFont with pointSizeF := fontsize }
      else b.doc.defaultFont) := by
  have hlen := applyFmtInRange_length
    (QTextCharFormat.applyTo { fontPointSize := some fontsize }) cursor.selectionStart
    cursor.selectionEnd b.doc.chars 0
  refine ⟨?_, ?_, ?_⟩
  · intro p
    simp only [set_textblk_fontsize_fn, QTextCursor.mergeCharFormat, TextBlkItem.document,
      QTextCursor.mergeBlockCharFormat, QTextDocument.reLayout, QTextDocument.setDefaultFont,
      QTextDocument.rootFrameLastPosition, apply_ite QTextDocument.chars, ite_self]
    rw [applyFmtInRange_getElem]
    simp [applyTo_fontPointSize]
  · simp only [set_textblk_fontsize_fn, QTextCursor.mergeCharFormat, TextBlkItem.document,
      QTextCursor.mergeBlockCharFormat, QTextDocument.reLayout, QTextDocument.setDefaultFont,
      QTextDocument.rootFrameLastPosition, apply_ite QTextDocument.blockCharFormat]
    simp [applyTo_fontPointSize]
  · simp only [set_textblk_fontsize_fn, QTextCursor.mergeCharFormat, TextBlkItem.document,
      QTextCursor.mergeBlockCharFormat, QTextDocument.reLayout, QTextDocument.setDefaultFont,
      QTextDocument.rootFrameLastPosition, apply_ite QTextDocument.defaultFont]
    rw [hlen]
    rfl

theorem pyround_le (x : Rat) : (pyround x : Rat) ≤ x + 1/2 := by
  have h1 : ((Int.floor x : Int) : Rat) ≤ x := Int.floor_le x
  have h2 : x < ((Int.floor x : Int) : Rat) + 1 := Int.lt_floor_add_one x
  simp only [pyround]
  split_ifs <;> push_cast <;> linarith

theorem le_pyround (x : Rat) : x - 1/2 ≤ (pyround x : Rat) := by
  have h1 : ((Int.floor x : Int) : Rat) ≤ x := Int.floor_le x
  have h2 : x < ((Int.floor x : Int) : Rat) + 1 := Int.lt_floor_add_one x
  simp only [pyround]
  split_ifs <;> push_cast <;> linarith

/--
C9 (amended): for a current font size `s` in `[1, 1000]`, the up button
emits only a size different from `s`, and every emitted size is an integer
in `[1, 1000]`; it is strictly greater than `s` whenever `s ≥ 2` (for a
non-integral `s` below 2 the rounded step can emit 1, which is smaller
than `s`).  The down button emits only an integer of at least 1 strictly
smaller than `s`, as originally claimed.
-/
theorem fontsizebox_step_spec (s : Rat) (e : Int) :
    (1 ≤ s → s ≤ 1000 → FontSizeBox.onUpBtnClicked s = some e →
      1 ≤ e ∧ e ≤ 1000 ∧ (e : Rat) ≠ s ∧ (2 ≤ s → s < (e : Rat))) ∧
    (1 ≤ s → s ≤ 1000 → FontSizeBox.onDownBtnClicked s = some e →
      1 ≤ e ∧ (e : Rat) < s) := by
  constructor
  · intro h1 h2 hemit
    simp only [FontSizeBox.onUpBtnClicked] at hemit
    generalize hn : pyround (s * (5/4)) = n at hemit
    have hnu : (n : Rat) ≤ s * (5/4) + 1/2 := by rw [← hn]; exact pyround_le _
    have hnl : s * (5/4) - 1/2 ≤ (n : Rat) := by rw [← hn]; exact le_pyround _
    have hn1 : 1 ≤ n := by
      have hq : (0 : Rat) < (n : Rat) := by linarith
      have : (0 : Int) < n := by exact_mod_cast hq
      omega
    by_cases hc : (n : Rat) = s
    · rw [if_pos hc] at hemit
      split_ifs at hemit with hne
      · have hme := Option.some.inj hemit
        subst hme
        refine ⟨by omega, by omega, hne, ?_⟩
        intro hs2
        rcases le_or_lt (n + 1) 1000 with hcap | hcap
        · rw [min_eq_right hcap]
          push_cast
          linarith [hc]
        · rw [min_eq_left hcap.le] at hne ⊢
          push_cast at hne ⊢
          exact lt_of_le_of_ne h2 fun h => hne h.symm
    · rw [if_neg hc] at hemit
      split_ifs at hemit with hne
      have hme := Option.some.inj hemit
      subst hme
      refine ⟨by omega, by omega, hne, ?_⟩
      intro hs2
      have hns : s ≤ (n : Rat) := by linarith
      have hlt : s < (n : Rat) := lt_of_le_of_ne hns fun h => hc h.symm
      rcases le_or_lt n 1000 with hcap | hcap
      · rw [min_eq_right hcap]
        exact hlt
      · rw [min_eq_left hcap.le] at hne ⊢
        push_cast at hne ⊢
        exact lt_of_le_of_ne h2 fun h => hne h.symm
  · intro h1 h2 hemit
    simp only [FontSizeBox.onDownBtnClicked] at hemit
    generalize hn : pyround (s * (3/4)) = n at hemit
    have hnu : (n : Rat) ≤ s * (3/4) + 1/2 := by rw [← hn]; exact pyround_le _
    have hnl : s * (3/4) - 1/2 ≤ (n : Rat) := by rw [← hn]; exact le_pyround _
    by_cases hc : (n : Rat) = s
    · rw [if_pos hc] at hemit
      split_ifs at hemit with hne
      · have hme := Option.some.inj hemit
        subst hme
        refine ⟨by omega, ?_⟩
        have hn1 : 1 ≤ n := by
          have hq : (1 : Rat) ≤ (n : Rat) := by rw [hc]; exact h1
          exact_mod_cast hq
        rcases eq_or_lt_of_le hn1 with h1e | h1lt
        · exfalso
          apply hne
          rw [← h1e] at hc ⊢
          norm_num
          exact_mod_cast hc
        · have hmax : max 1 (n - 1) = n - 1 := by omega
          rw [hmax]
          push_cast
          linarith [hc]
    · rw [if_neg hc] at hemit
      split_ifs at hemit with hne
      · have hme := Option.some.inj hemit
        subst hme
        refine ⟨by omega, ?_⟩
        rcases lt_or_le 2 s with hs2 | hs2
        · have hns : (n : Rat) < s := by linarith
          have hq1 : (1 : Rat) < (n : Rat) := by linarith
          have h1n : 1 < n := by exact_mod_cast hq1
          rw [max_eq_right h1n.le]
          exact hns
        · have hq0 : (0 : Rat) < (n : Rat) := by linarith
          have hq2 : (n : Rat) ≤ 2 := by linarith
          have h0n : 0 < n := by exact_mod_cast hq0
          have hn2i : n ≤ 2 := by exact_mod_cast hq2
          interval_cases n
          · norm_num at hne ⊢
            exact lt_of_le_of_ne h1 hne
          · exfalso
            apply hc
            push_cast at hnu ⊢
            linarith

/--
C9 (witness): the specification applied at the concrete size 4: the up
button emits 5 and the down button emits 3.
-/
theorem fontsizebox_step_spec_witness :
    ((1 : Rat) ≤ 4 ∧ (4 : Rat) ≤ 1000 ∧ FontSizeBox.onUpBtnClicked 4 = some 5 ∧
      (1 ≤ (5 : Int) ∧ (5 : Int) ≤ 1000 ∧ ((5 : Int) : Rat) ≠ 4 ∧
        ((2 : Rat) ≤ 4 → (4 : Rat) < ((5 : Int) : Rat)))) ∧
    (FontSizeBox.onDownBtnClicked 4 = some 3 ∧ (1 ≤ (3 : Int) ∧ ((3 : Int) : Rat) < 4)) :=
  ⟨⟨by norm_num, by norm_num, by norm_num [FontSizeBox.onUpBtnClicked, pyround],
      (fontsizebox_step_spec 4 5).1 (by norm_num) (by norm_num)
        (by norm_num [FontSizeBox.onUpBtnClicked, pyround])⟩,
    ⟨by norm_num [FontSizeBox.onDownBtnClicked, pyround],
      (fontsizebox_step_spec 4 3).2 (by norm_num) (by norm_num)
        (by norm_num [FontSizeBox.onDownBtnClicked, pyround])⟩⟩

/--
C9 (counterexample): at current size 1.1 the up button emits 1, which is
smaller than the current size, refuting the original claim that every size
emitted by the up button is strictly greater than the current one.
-/
theorem fontsizebox_up_not_increasing_cex :
    FontSizeBox.onUpBtnClicked (11/10) = some 1 ∧ ¬ ((11/10 : Rat) < ((1 : Int) : Rat)) := by
  constructor
  · norm_num [FontSizeBox.onUpBtnClicked, pyround]
  · norm_num

theorem restore_textcursor_unfold (f : TextBlkItem → QTextCursor → TextBlkItem × QTextCursor)
    (b : TextBlkItem) :
    restore_textcursor f (some b) = some (restore_finish b (f b (invoked_cursor b))) := by
  cases hsel : b.textCursor.hasSelection <;>
    simp [restore_textcursor, restore_finish, invoked_cursor, hsel]

@[simp]
theorem TextBlkItem.doc_setTextCursor (b : TextBlkItem) (c : QTextCursor) :
    (b.setTextCursor c).doc = b.doc := rfl

@[simp]
theorem TextBlkItem.doc_repaint (b : TextBlkItem) :
    b.repaint_background.doc = b.doc := rfl

theorem restore_finish_doc (b0 : TextBlkItem) (res : TextBlkItem × QTextCursor) :
    (restore_finish b0 res).doc = res.1.doc := by
  simp [restore_finish, apply_ite TextBlkItem.doc]

theorem restore_finish_cursor_charFormat (b0 : TextBlkItem) (res : TextBlkItem × QTextCursor) :
    (restore_finish b0 res).cursor.charFormat = res.2.charFormat := by
  simp only [restore_finish, apply_ite TextBlkItem.cursor]
  split_ifs <;>
    simp [TextBlkItem.setTextCursor, TextBlkItem.repaint_background, QTextCursor.setPosition,
      QTextCursor.setPositionKeepAnchor]

theorem invoked_cursor_start_le (b : TextBlkItem) :
    (invoked_cursor b).selectionStart ≤ (invoked_cursor b).selectionEnd := by
  simp [QTextCursor.selectionStart, QTextCursor.selectionEnd]

theorem invoked_cursor_end_le (b : TextBlkItem)
    (h1 : b.cursor.position ≤ b.doc.chars.length)
    (h2 : b.cursor.anchor ≤ b.doc.chars.length) :
    (invoked_cursor b).selectionEnd ≤ b.doc.chars.length := by
  unfold invoked_cursor
  cases hsel : b.cursor.hasSelection
  all_goals
    simp [hsel, QTextCursor.selectDocument, QTextCursor.selectionEnd,
      QTextDocument.rootFrameLastPosition, TextBlkItem.document, TextBlkItem.textCursor]
  omega

theorem take_mid_drop {α : Type} (l : List α) (s e : Nat) (hse : s ≤ e) :
    l.take s ++ (l.drop s).take (e - s) ++ l.drop e = l := by
  have hd : l.drop e = ((l.drop s).drop (e - s)) := by
    rw [List.drop_drop]
    congr 1
    omega
  rw [List.append_assoc, hd, List.take_append_drop, List.take_append_drop]

theorem splice_getElem {α : Type} (l : List α) (s e : Nat) (g : α → α)
    (hse : s ≤ e) (hel : e ≤ l.length) (p : Nat) :
    (l.take s ++ ((l.drop s).take (e - s)).map g ++ l.drop e)[p]? =
      (l[p]?).map fun cf => if s ≤ p ∧ p < e then g cf else cf := by
  have hlenA : (l.take s).length = s := by
    simp [List.length_take]
    omega
  have hlenB : (((l.drop s).take (e - s)).map g).length = e - s := by
    simp [List.length_take, List.length_drop]
    omega
  have hlenAB : (l.take s ++ ((l.drop s).take (e - s)).map g).length = e := by
    simp [hlenA, hlenB]
    omega
  rcases lt_or_le p s with hp | hp
  · rw [List.getElem?_append_left (by rw [hlenAB]; omega),
      List.getElem?_append_left (by rw [hlenA]; omega)]
    rw [List.getElem?_take]
    rw [if_pos hp]
    have hfalse : ¬ (s ≤ p ∧ p < e) := by omega
    rcases hl : l[p]? with _ | cf <;> simp [hfalse]
  · rcases lt_or_le p e with hpe | hpe
    · rw [List.getElem?_append_left (by rw [hlenAB]; omega),
        List.getElem?_append_right (by rw [hlenA]; omega)]
      rw [hlenA, List.getElem?_map, List.getElem?_take,
        if_pos (show p - s < e - s by omega), List.getElem?_drop]
      have : s + (p - s) = p := by omega
      rw [this]
      have htrue : s ≤ p ∧ p < e := by omega
      rcases hl : l[p]? with _ | cf <;> simp [htrue]
    · rw [List.getElem?_append_right (by rw [hlenAB]; omega), hlenAB,
        List.getElem?_drop]
      have : e + (p - e) = p := by omega
      rw [this]
      have hfalse : ¬ (s ≤ p ∧ p < e) := by omega
      rcases hl : l[p]? with _ | cf <;> simp [hfalse]

theorem map_fst_set_html_color (h : List (Char × CharFormat)) (rgb : Rgb) :
    (set_html_color h rgb).map Prod.fst = h.map Prod.fst := by
  induction h with
  | nil => rfl
  | cons hd tl ih =>
      simp [set_html_color]

/--
C6: `set_textblk_color` takes the HTML-replacement branch on a non-empty
document, recoloring exactly the effective selection (every selected
position keeps its character and the rest of its format, only the
foreground becomes the given rgb; unselected positions are untouched), and
on an empty document it only sets the foreground of the cursor-local
character format; in both cases the character sequence of the document is
unchanged.
-/
theorem set_textblk_color_spec (b : TextBlkItem) (rgb : Rgb)
    (h1 : b.cursor.position ≤ b.doc.chars.length)
    (h2 : b.cursor.anchor ≤ b.doc.chars.length) :
    ∃ b2, set_textblk_color (some b) rgb = some b2 ∧
      b2.doc.chars.map Prod.fst = b.doc.chars.map Prod.fst ∧
      (b.doc.isEmpty = false →
        ∀ p : Nat, b2.doc.chars[p]? =
          (b.doc.chars[p]?).map fun cf =>
            if (invoked_cursor b).selectionStart ≤ p ∧ p < (invoked_cursor b).selectionEnd then
              (cf.1, { cf.2 with foreground := rgb })
            else cf) ∧
      (b.doc.isEmpty = true → b2.doc = b.doc ∧ b2.cursor.charFormat.foreground = rgb) := by
  rw [set_textblk_color, restore_textcursor_unfold]
  have hse : (invoked_cursor b).selectionStart ≤ (invoked_cursor b).selectionEnd :=
    invoked_cursor_start_le b
  have hel : (invoked_cursor b).selectionEnd ≤ b.doc.chars.length :=
    invoked_cursor_end_le b h1 h2
  have hb2doc : (restore_finish b (set_textblk_color_fn b (invoked_cursor b) rgb)).doc =
      (set_textblk_color_fn b (invoked_cursor b) rgb).1.doc := restore_finish_doc _ _
  have hfn1 : b.doc.isEmpty = false →
      (set_textblk_color_fn b (invoked_cursor b) rgb).1.doc.chars =
        b.doc.chars.take (invoked_cursor b).selectionStart ++
          set_html_color ((invoked_cursor b).selectionContent b.doc) rgb ++
          b.doc.chars.drop (invoked_cursor b).selectionEnd := by
    intro hemp
    simp [set_textblk_color_fn, TextBlkItem.document, hemp, QTextCursor.insertHtml]
  refine ⟨_, rfl, ?_, ?_, ?_⟩
  · cases hemp : b.doc.isEmpty
    · rw [hb2doc, hfn1 hemp, List.map_append, List.map_append, map_fst_set_html_color,
        QTextCursor.selectionContent, ← List.map_append, ← List.map_append,
        take_mid_drop _ _ _ hse]
    · have hnil : b.doc.chars = [] := by
        simpa [QTextDocument.isEmpty] using hemp
      have : (set_textblk_color_fn b (invoked_cursor b) rgb).1.doc.chars = [] := by
        simp [set_textblk_color_fn, TextBlkItem.document, hemp, QTextCursor.setCharFormat,
          QTextCursor.insertHtml, hnil, QTextCursor.selectionContent, set_html_color,
          applyFmtInRange]
      rw [hb2doc, this, hnil]
  · intro hemp p
    rw [hb2doc, hfn1 hemp, QTextCursor.selectionContent]
    exact splice_getElem b.doc.chars (invoked_cursor b).selectionStart
      (invoked_cursor b).selectionEnd _ hse hel p
  · intro hemp
    have hnil : b.doc.chars = [] := by
      simpa [QTextDocument.isEmpty] using hemp
    constructor
    · rw [hb2doc]
      have : (set_textblk_color_fn b (invoked_cursor b) rgb).1.doc =
          { b.doc with chars := [] } := by
        simp [set_textblk_color_fn, TextBlkItem.document, hemp, QTextCursor.setCharFormat,
          hnil, applyFmtInRange]
      rw [this, ← hnil]
    · rw [restore_finish_cursor_charFormat]
      simp [set_textblk_color_fn, TextBlkItem.document, hemp, QTextCursor.setCharFormat]

/--
C6 (witness): the specification applied to the concrete block item
`blkBack` (three characters, selection of positions 0 and 1) with red.
-/
theorem set_textblk_color_spec_witness :
    blkBack.cursor.position ≤ blkBack.doc.chars.length ∧
    blkBack.cursor.anchor ≤ blkBack.doc.chars.length ∧
    (∃ b2, set_textblk_color (some blkBack) [255, 0, 0] = some b2 ∧
      b2.doc.chars.map Prod.fst = blkBack.doc.chars.map Prod.fst ∧
      (blkBack.doc.isEmpty = false →
        ∀ p : Nat, b2.doc.chars[p]? =
          (blkBack.doc.chars[p]?).map fun cf =>
            if (invoked_cursor blkBack).selectionStart ≤ p ∧
                p < (invoked_cursor blkBack).selectionEnd then
              (cf.1, { cf.2 with foreground := [255, 0, 0] })
            else cf) ∧
      (blkBack.doc.isEmpty = true →
        b2.doc = blkBack.doc ∧ b2.cursor.charFormat.foreground = [255, 0, 0])) :=
  ⟨by decide, by decide,
    set_textblk_color_spec blkBack [255, 0, 0] (by decide) (by decide)⟩

theorem takeWhile_eq_getElem {α : Type} [DecidableEq α] (f : α) :
    ∀ (l : List α) (i : Nat), i < (l.takeWhile (fun g => g == f)).length → l[i]? = some f := by
  intro l
  induction l with
  | nil =>
      intro i h
      simp at h
  | cons a t ih =>
      intro i h
      by_cases ha : a == f
      · have haf : a = f := by simpa using ha
        cases i with
        | zero => simp [haf]
        | succ j =>
            rw [List.getElem?_cons_succ]
            apply ih
            simp only [List.takeWhile_cons, ha, if_true, List.length_cons] at h
            omega
      · simp [List.takeWhile_cons, ha] at h

theorem run_getElem (f : CharFormat) (rest : List CharFormat) (i : Nat)
    (hi : i < (rest.takeWhile (fun g => g == f)).length + 1) :
    (f :: rest)[i]? = some f := by
  cases i with
  | zero => simp
  | succ j =>
      rw [List.getElem?_cons_succ]
      exact takeWhile_eq_getElem f rest j (by omega)

theorem familyStep_chars (family : String) (selS selE : Nat) (doc : QTextDocument)
    (cur : QTextCursor) (fs n : Nat) (f : CharFormat) (q : Nat) :
    (familyStep family selS selE (doc, cur) (fs, n, f)).1.chars[q]? =
      (if max fs selS ≤ q ∧ q < min (fs + n) selE then
        (doc.chars[q]?).map fun cf =>
          (cf.1, { f with font := { f.font with family := family } })
      else doc.chars[q]?) := by
  by_cases hov : max fs selS < min (fs + n) selE
  · have hps : ((cur.setPosition (max fs selS)).setPositionKeepAnchor
        (min (fs + n) selE)).selectionStart = max fs selS := by
      simp [QTextCursor.setPosition, QTextCursor.setPositionKeepAnchor,
        QTextCursor.selectionStart]
      omega
    have hpe : ((cur.setPosition (max fs selS)).setPositionKeepAnchor
        (min (fs + n) selE)).selectionEnd = min (fs + n) selE := by
      simp [QTextCursor.setPosition, QTextCursor.setPositionKeepAnchor,
        QTextCursor.selectionEnd]
      omega
    simp only [familyStep, hov, if_true, QTextCursor.setCharFormat, hps, hpe]
    rw [applyFmtInRange_getElem]
    simp only [zero_add]
    by_cases hq : max fs selS ≤ q ∧ q < min (fs + n) selE
    · rw [if_pos hq]
      rcases doc.chars[q]? with _ | cf
      · rfl
      · simp only [Option.map_some']
        rw [if_pos hq]
    · rw [if_neg hq]
      rcases doc.chars[q]? with _ | cf
      · rfl
      · simp only [Option.map_some']
        rw [if_neg hq]
  · simp only [familyStep, hov, if_false]
    rw [if_neg (by omega)]

theorem length_takeWhile_le' {α : Type} (p : α → Bool) (l : List α) :
    (l.takeWhile p).length ≤ l.length := by
  induction l with
  | nil => simp
  | cons a t ih =>
      rw [List.takeWhile_cons]
      by_cases ha : p a
      · simp only [ha, if_true, List.length_cons]
        omega
      · simp only [ha, if_false]
        simp

theorem family_foldl_getElem (family : String) (selS selE : Nat) :
    ∀ (N : Nat) (fmts : List CharFormat), fmts.length ≤ N →
    ∀ (s : Nat) (doc : QTextDocument) (cur : QTextCursor),
    (∀ i, i < fmts.length → (doc.chars[s + i]?).map Prod.snd = fmts[i]?) →
    ∀ p : Nat,
      ((fragmentsFrom s fmts).foldl (familyStep family selS selE) (doc, cur)).1.chars[p]? =
        if s ≤ p ∧ p < s + fmts.length ∧ selS ≤ p ∧ p < selE then
          (doc.chars[p]?).map fun cf =>
            (cf.1, { cf.2 with font := { cf.2.font with family := family } })
        else doc.chars[p]? := by
  intro N
  induction N with
  | zero =>
      intro fmts hlen s doc cur hagree p
      have hnil : fmts = [] := List.length_eq_zero.mp (Nat.le_zero.mp hlen)
      subst hnil
      simp only [fragmentsFrom, List.foldl_nil, List.length_nil]
      rw [if_neg (by omega)]
  | succ N ih =>
      intro fmts hlen s doc cur hagree p
      cases fmts with
      | nil =>
          simp only [fragmentsFrom, List.foldl_nil, List.length_nil]
          rw [if_neg (by omega)]
      | cons f rest =>
          have hfrag : fragmentsFrom s (f :: rest) =
              (s, (rest.takeWhile (fun g => g == f)).length + 1, f) ::
                fragmentsFrom (s + ((rest.takeWhile (fun g => g == f)).length + 1))
                  (rest.drop (rest.takeWhile (fun g => g == f)).length) := by
            rw [fragmentsFrom]
          rw [hfrag, List.foldl_cons]
          set k := (rest.takeWhile (fun g => g == f)).length with hk
          have hkle : k ≤ rest.length := by
            rw [hk]
            exact length_takeWhile_le' _ _
          set st1 := familyStep family selS selE (doc, cur) (s, k + 1, f) with hst1
          have hstep : ∀ q, st1.1.chars[q]? =
              if max s selS ≤ q ∧ q < min (s + (k + 1)) selE then
                (doc.chars[q]?).map fun cf =>
                  (cf.1, { f with font := { f.font with family := family } })
              else doc.chars[q]? := by
            intro q
            rw [hst1]
            exact familyStep_chars family selS selE doc cur s (k + 1) f q
          have hsame : ∀ q, s + (k + 1) ≤ q → st1.1.chars[q]? = doc.chars[q]? := by
            intro q hq
            rw [hstep q, if_neg (by omega)]
          have hagree2 : ∀ i, i < (rest.drop k).length →
              (st1.1.chars[s + (k + 1) + i]?).map Prod.snd = (rest.drop k)[i]? := by
            intro i hi
            simp only [List.length_drop] at hi
            rw [hsame _ (by omega)]
            have h1 : s + (k + 1) + i = s + ((k + 1) + i) := by omega
            rw [h1, hagree ((k + 1) + i) (by simp only [List.length_cons]; omega)]
            rw [show (k + 1) + i = (k + i) + 1 from by omega, List.getElem?_cons_succ,
              List.getElem?_drop]
          have hrec : ((fragmentsFrom (s + (k + 1)) (rest.drop k)).foldl
              (familyStep family selS selE) st1).1.chars[p]? =
                if s + (k + 1) ≤ p ∧ p < s + (k + 1) + (rest.drop k).length ∧
                    selS ≤ p ∧ p < selE then
                  (st1.1.chars[p]?).map fun cf =>
                    (cf.1, { cf.2 with font := { cf.2.font with family := family } })
                else st1.1.chars[p]? :=
            ih (rest.drop k)
              (by simp only [List.length_cons] at hlen; simp only [List.length_drop]; omega)
              (s + (k + 1)) st1.1 st1.2 hagree2 p
          rw [hrec]
          simp only [List.length_drop, List.length_cons]
          rcases le_or_lt (s + (k + 1)) p with hp | hp
          · have hsp : st1.1.chars[p]? = doc.chars[p]? := hsame p hp
            rw [hsp]
            by_cases hC : s ≤ p ∧ p < s + (rest.length + 1) ∧ selS ≤ p ∧ p < selE
            · rw [if_pos ⟨by omega, by omega, hC.2.2⟩, if_pos hC]
            · rw [if_neg (fun hC2 => hC ⟨by omega, by omega, hC2.2.2⟩), if_neg hC]
          · rw [if_neg (by omega)]
            rw [hstep p]
            by_cases hC : s ≤ p ∧ p < s + (rest.length + 1) ∧ selS ≤ p ∧ p < selE
            · rw [if_pos (⟨by omega, by omega⟩ :
                  max s selS ≤ p ∧ p < min (s + (k + 1)) selE), if_pos hC]
              have hif : (f :: rest)[p - s]? = some f := run_getElem f rest (p - s) (by omega)
              have hsnd := hagree (p - s) (by simp only [List.length_cons]; omega)
              rw [show s + (p - s) = p from by omega] at hsnd
              rw [hif] at hsnd
              rcases hdp : doc.chars[p]? with _ | cf
              · rfl
              · rw [hdp] at hsnd
                simp only [Option.map_some'] at hsnd ⊢
                have hcf : cf.2 = f := by simpa using hsnd
                rw [← hcf]
            · rw [if_neg (by omega), if_neg hC]

/--
C5: `set_textblk_family` changes exactly the positions of the effective
selection: every selected position gets the new font family while keeping
its previous point size, weight, italic flag, underline flag, word spacing
and letter spacing (and its foreground), because the per-fragment rebuild
copies all of those from the fragment format; positions of fragments
disjoint from the selection are not modified.
-/
theorem set_textblk_family_spec (b : TextBlkItem) (cursor : QTextCursor)
    (family : String) (p : Nat) :
    (set_textblk_family_fn b cursor family).1.doc.chars[p]? =
      if cursor.selectionStart ≤ p ∧ p < cursor.selectionEnd then
        (b.doc.chars[p]?).map fun cf =>
          (cf.1, { cf.2 with font := { cf.2.font with family := family } })
      else b.doc.chars[p]? := by
  have hagree0 : ∀ i, i < (b.doc.chars.map Prod.snd).length →
      (b.doc.chars[0 + i]?).map Prod.snd = (b.doc.chars.map Prod.snd)[i]? := by
    intro i hi
    rw [Nat.zero_add, List.getElem?_map]
  have hmain := family_foldl_getElem family cursor.selectionStart cursor.selectionEnd
    (b.doc.chars.map Prod.snd).length (b.doc.chars.map Prod.snd) le_rfl 0 b.doc cursor
    hagree0 p
  simp only [set_textblk_family_fn, TextBlkItem.document]
  rw [hmain]
  simp only [Nat.zero_add, List.length_map, Nat.zero_le, true_and]
  by_cases hX : cursor.selectionStart ≤ p ∧ p < cursor.selectionEnd
  · by_cases hlen : p < b.doc.chars.length
    · rw [if_pos ⟨hlen, hX⟩, if_pos hX]
    · rw [if_neg (fun h => hlen h.1), if_pos hX]
      have hnone : b.doc.chars[p]? = none := List.getElem?_eq_none (by omega)
      rw [hnone]
      rfl
  · rw [if_neg (fun h => hX h.2), if_neg hX]
